import Mathlib

/-!
Shallow embedding of the DownLoadMCP download core (TypeScript sources under
`src/`), together with theorems settling the specification claims about it.

Conventions:
* JS numbers that hold byte counts, sizes and timestamps are modelled as `Nat`
  (the code only ever produces nonnegative integers for them); millisecond
  delays computed with `Math.pow`/`Math.random` are modelled as `ℚ` with an
  explicit `Int.floor` where the code calls `Math.floor`.
* `async` functions that touch the file system are modelled either as pure
  functions over an explicit environment (a record of oracles for `fs.stat`,
  file existence, digest computation) or as functions returning the list of
  file-system operations they perform, in program order.
* JS truthiness tests on optional strings (`if (x)`) are modelled by
  `jsTruthy`, which is false for `none` and for the empty string.
-/

namespace DownLoadMCP

/-! ### Data model, from `src/types/download.ts` -/

/-- `DownloadStatus` enum from `src/types/download.ts`. -/
inductive DownloadStatus
  | pending
  | downloading
  | paused
  | completed
  | failed
  | cancelled
  deriving DecidableEq, Repr, Inhabited

/-- `WorkMode` enum from `src/types/download.ts`. -/
inductive WorkMode
  | blocking
  | nonBlocking
  | persistent
  | temporary
  deriving DecidableEq, Repr, Inhabited

/-- `DownloadSegment` from `src/types/download.ts`.  The inclusive upper byte
bound is called `end` in the source; `end` is a Lean keyword, so the field is
named `endPos` here. -/
structure DownloadSegment where
  id : String
  start : Nat
  endPos : Nat
  downloaded : Nat
  status : DownloadStatus
  filePath : String
  checksum : Option String := none
  retryCount : Option Nat := none
  deriving DecidableEq, Repr, Inhabited

/-- `IntegrityConfig` from `src/config/download-config.ts`. -/
structure IntegrityConfig where
  enabled : Bool
  algorithm : String
  expectedChecksum : Option String := none
  enableSegmentVerification : Bool
  enableRealTimeVerification : Bool
  verifyAfterMerge : Bool
  deriving DecidableEq, Repr, Inhabited

/-- `DownloadConfig` from `src/types/download.ts` (zod schema), together with
the optional `integrity` section contributed by `ExtendedDownloadConfig`
(`src/config/download-config.ts`), which structurally extends it. -/
structure DownloadConfig where
  url : String
  outputPath : String
  filename : Option String := none
  maxConcurrency : Nat := 4
  chunkSize : Nat := 1048576
  timeout : Nat := 30000
  retryCount : Nat := 3
  workMode : WorkMode := .nonBlocking
  headers : List (String × String) := []
  enableResume : Bool := true
  sessionId : Option String := none
  integrity : Option IntegrityConfig := none
  deriving DecidableEq, Repr, Inhabited

/-- The `metadata` record embedded in `DownloadTask`
(`src/types/download.ts`). -/
structure TaskMetadata where
  contentLength : Option Nat := none
  contentType : Option String := none
  lastModified : Option String := none
  etag : Option String := none
  supportsRange : Bool := false
  deriving DecidableEq, Repr, Inhabited

/-- `DownloadProgress` from `src/types/download.ts`.  The floating-point
display fields `percentage`, `speed` and `eta` are not modelled. -/
structure DownloadProgress where
  taskId : String
  totalSize : Nat
  downloadedSize : Nat
  segments : List DownloadSegment
  deriving DecidableEq, Repr, Inhabited

/-- `DownloadTask` from `src/types/download.ts`.  `Date` values are modelled
as `Nat` millisecond timestamps. -/
structure DownloadTask where
  id : String
  config : DownloadConfig
  status : DownloadStatus
  progress : DownloadProgress
  createdAt : Nat
  updatedAt : Nat
  startedAt : Option Nat := none
  completedAt : Option Nat := none
  error : Option String := none
  metadata : TaskMetadata
  deriving DecidableEq, Repr, Inhabited

/-! ### Segmentation planner

`MultiThreadDownloader.calculateSegments` from
`src/core/multi-thread-downloader.ts` and
`SegmentCalculator.generateSegments` from `src/core/segment-calculator.ts`. -/

/-- `Math.ceil(a / b)` on nonnegative integers. -/
def natCeilDiv (a b : Nat) : Nat := (a + b - 1) / b

/-- `MultiThreadDownloader.calculateSegments`
(`src/core/multi-thread-downloader.ts`, lines 267–288):
`segmentCount = min(maxConcurrency, ceil(totalSize / chunkSize))`,
`segmentSize = floor(totalSize / segmentCount)`, and segment `i` spans
`[i*segmentSize, (i+1)*segmentSize - 1]`, the last one absorbing the
remainder up to `totalSize - 1`. -/
def calculateSegments (totalSize maxConcurrency chunkSize : Nat)
    (outputPath : String) : List DownloadSegment :=
  let segmentCount := min maxConcurrency (natCeilDiv totalSize chunkSize)
  let segmentSize := totalSize / segmentCount
  (List.range segmentCount).map (fun i =>
    let start := i * segmentSize
    let endPos := if i = segmentCount - 1 then totalSize - 1
      else start + segmentSize - 1
    { id := "segment_" ++ toString i
      start := start
      endPos := endPos
      downloaded := 0
      status := .pending
      filePath := outputPath ++ ".part" ++ toString i })

/-- The loop body of `SegmentCalculator.generateSegments`
(`src/core/segment-calculator.ts`, lines 151–181): iterates with a running
`currentPos`; `remaining` counts the iterations still to go after the current
one, so `remaining = 0` is the `i === connections - 1` branch. -/
def generateSegmentsAux (totalSize chunkSize : Nat) (outputPath : String) :
    Nat → Nat → Nat → List DownloadSegment
  | _, 0, _ => []
  | i, remaining + 1, pos =>
    let start := pos
    let endPos := if remaining = 0 then totalSize - 1
      else min (pos + chunkSize - 1) (totalSize - 1)
    { id := "segment_" ++ toString i
      start := start
      endPos := endPos
      downloaded := 0
      status := .pending
      filePath := outputPath ++ ".part" ++ toString i
      checksum := some ""
      retryCount := some 0 } ::
      generateSegmentsAux totalSize chunkSize outputPath (i + 1) remaining (endPos + 1)

/-- `SegmentCalculator.generateSegments` (`src/core/segment-calculator.ts`,
lines 151–181). -/
def generateSegments (totalSize connections chunkSize : Nat)
    (outputPath : String) : List DownloadSegment :=
  generateSegmentsAux totalSize chunkSize outputPath 0 connections 0

/-- The partition shape claimed by the spec for a planned segment list over
`[0, totalSize)`: nonempty, stable ids `segment_0 … segment_{N-1}`, first
segment starting at 0, last ending at `totalSize - 1`, consecutive segments
contiguous (`next.start = prev.end + 1`), starts ordered, all segment ends
below `totalSize`, and every byte of `[0, totalSize)` covered by exactly one
segment. -/
def segmentsPartition (totalSize : Nat) (segs : List DownloadSegment) : Prop :=
  segs ≠ [] ∧
  (∀ j, j < segs.length →
    (segs.getD j default).id = "segment_" ++ toString j) ∧
  (segs.getD 0 default).start = 0 ∧
  (segs.getD (segs.length - 1) default).endPos = totalSize - 1 ∧
  (∀ j, j + 1 < segs.length →
    (segs.getD (j + 1) default).start = (segs.getD j default).endPos + 1) ∧
  (∀ j k, j < k → k < segs.length →
    (segs.getD j default).start ≤ (segs.getD k default).start) ∧
  (∀ j, j < segs.length → (segs.getD j default).endPos < totalSize) ∧
  (∀ b, b < totalSize → ∃! j, j < segs.length ∧
    (segs.getD j default).start ≤ b ∧ b ≤ (segs.getD j default).endPos)

/-! ### Segment worker, from `src/core/multi-thread-downloader.ts`

The in-string worker body of `MultiThreadDownloader.createDownloadWorker`
(lines 293–400).  Its `fetch` sends a `Range` header built from the segment's
`start` and `end` fields alone, it accepts any response with `response.ok`
(status 200–299), and it opens the part file with `fs.createWriteStream`
without flags, i.e. truncating. -/

/-- How the worker opens the segment's part file. -/
inductive WriteMode
  | truncate
  | append
  deriving DecidableEq, Repr

/-- The `Range` header the in-string worker attaches to its GET:
`"bytes=" + segment.start + "-" + segment.end`. -/
def workerRangeHeader (seg : DownloadSegment) : String :=
  "bytes=" ++ toString seg.start ++ "-" ++ toString seg.endPos

/-- Modelled from the spec: the `Range` header the specification prescribes,
`bytes={start+downloaded}-{end}`.  Kept separate from `workerRangeHeader`
(which is translated from the source) so the two can be compared. -/
def specRangeHeader (seg : DownloadSegment) : String :=
  "bytes=" ++ toString (seg.start + seg.downloaded) ++ "-" ++ toString seg.endPos

/-- The worker opens `segment.filePath` with `fs.createWriteStream(path)`:
default flags `w`, which truncate the file. -/
def workerOpenMode : WriteMode := .truncate

/-- The worker's acceptance test on the response: `if (!response.ok) throw`,
so exactly the statuses 200–299 are accepted and have their body streamed to
the part file. -/
def workerAcceptsStatus (status : Nat) : Bool :=
  200 ≤ status && status < 300

/-- Modelled from the spec: the acceptance rule the specification prescribes
for a ranged segment fetch — only `206`, or `200` when nothing of the segment
has been downloaded yet and the total size matches. -/
def specAcceptsStatus (seg : DownloadSegment) (status : Nat)
    (totalSizeMatches : Bool) : Prop :=
  status = 206 ∨ (status = 200 ∧ seg.downloaded = 0 ∧ totalSizeMatches = true)

/-! ### Merge and completion

`MultiThreadDownloader.mergeSegments` / `emitCompletion`
(`src/core/multi-thread-downloader.ts`, lines 405–481) and the `completed`
handler of `DownloadManager.setupDownloaderEvents`
(`src/core/download-manager.ts`, lines 264–273). -/

/-- File-system operations performed by `mergeSegments`, in program order. -/
inductive MergeOp
  | createWriteStream (path : String)
  | readFile (path : String)
  | writeChunk (path : String)
  | unlink (path : String)
  | endStream (path : String)
  deriving DecidableEq, Repr

/-- `MultiThreadDownloader.mergeSegments`: open `outputPath` truncating, then
for each segment in list order read its part file, append the data, and
delete the part file; finally close the stream.  No digest of any kind is
computed. -/
def mergeSegmentsOps (outputPath : String) (segments : List DownloadSegment) :
    List MergeOp :=
  MergeOp.createWriteStream outputPath ::
    (segments.flatMap (fun s =>
      [MergeOp.readFile s.filePath, MergeOp.writeChunk outputPath,
        MergeOp.unlink s.filePath])) ++ [MergeOp.endStream outputPath]

/-- The `completed` handler in `DownloadManager.setupDownloaderEvents`: it
unconditionally marks the task `COMPLETED` and stamps `completedAt` /
`updatedAt`; it inspects neither the task's integrity configuration nor any
digest. -/
def onDownloaderCompleted (task : DownloadTask) (now : Nat) : DownloadTask :=
  { task with status := .completed, completedAt := some now, updatedAt := now }

/-! ### Pause / cancel tools

`CancelDownloadTool.execute` (`src/tools/cancel-download.ts`, lines 57–80),
`PauseDownloadTool.execute` (`src/tools/pause-download.ts`, lines 56–67) and
`DownloadManager.pauseDownload` / `cancelDownload`
(`src/core/download-manager.ts`). -/

/-- The success/error payload of a pause/cancel tool response; the
human-readable message strings are not modelled. -/
structure OperationResult where
  success : Bool
  errorCode : Option String := none
  newStatus : Option DownloadStatus := none
  deriving DecidableEq, Repr

/-- `CancelDownloadTool.execute` on a task that exists, paired with the task
state after the call: a `completed` task is rejected with `INVALID_STATUS`, a
`cancelled` task gets an early successful response without touching the
manager, and otherwise `DownloadManager.cancelDownload` marks the task
`CANCELLED` (stamping `updatedAt := now`). -/
def cancelToolExecute (task : DownloadTask) (now : Nat) :
    OperationResult × DownloadTask :=
  if task.status = .completed then
    ({ success := false, errorCode := some "INVALID_STATUS" }, task)
  else if task.status = .cancelled then
    ({ success := true, newStatus := some .cancelled }, task)
  else
    ({ success := true, newStatus := some .cancelled },
      { task with status := .cancelled, updatedAt := now })

/-- `PauseDownloadTool.execute` on a task that exists, paired with the task
state after the call: any status other than `downloading` is rejected with
`INVALID_STATUS` and the task is left untouched; otherwise
`DownloadManager.pauseDownload` marks the task `PAUSED`
(stamping `updatedAt := now`). -/
def pauseToolExecute (task : DownloadTask) (now : Nat) :
    OperationResult × DownloadTask :=
  if task.status ≠ .downloading then
    ({ success := false, errorCode := some "INVALID_STATUS" }, task)
  else
    ({ success := true, newStatus := some .paused },
      { task with status := .paused, updatedAt := now })

/-! ### Start gate, from `src/core/download-manager.ts` -/

/-- `DownloadManager.maxConcurrentTasks` (field initializer, line 21). -/
def maxConcurrentTasks : Nat := 5

/-- The error kinds `DownloadManager.startDownload` can throw before it
transitions the task. -/
inductive StartErr
  | taskNotFound
  | invalidState
  | queueFull
  deriving DecidableEq, Repr

/-- The manager's task map (`tasks: Map<string, DownloadTask>`), modelled as
a list of tasks; JS `Map` keys are unique, which theorems take as a `Nodup`
hypothesis on the ids. -/
structure DMState where
  tasks : List DownloadTask
  deriving Repr

/-- Number of tasks currently in `DOWNLOADING`
(`Array.from(this.tasks.values()).filter(t => t.status === DOWNLOADING).length`). -/
def countDownloading (tasks : List DownloadTask) : Nat :=
  tasks.countP (fun t => t.status == DownloadStatus.downloading)

/-- `this.tasks.get(taskId)` — lookup by id. -/
def findTask (tasks : List DownloadTask) (taskId : String) :
    Option DownloadTask :=
  tasks.find? (fun t => t.id == taskId)

/-- The mutation `startDownload` applies to the task it starts:
`task.status = DOWNLOADING; task.startedAt = new Date(); task.updatedAt = new Date()`. -/
def startUpdate (taskId : String) (now : Nat) (t : DownloadTask) : DownloadTask :=
  if t.id == taskId then
    { t with status := .downloading, startedAt := some now, updatedAt := now }
  else t

/-- The synchronous gate of `DownloadManager.startDownload`
(`src/core/download-manager.ts`, lines 98–121): missing task and bad status
throw; when the count of `DOWNLOADING` tasks has reached
`maxConcurrentTasks` the call throws (queue-full) before any state change;
otherwise the task is marked `DOWNLOADING` with `startedAt`/`updatedAt`
stamped. -/
def startDownload (st : DMState) (taskId : String) (now : Nat) :
    Except StartErr DMState :=
  match findTask st.tasks taskId with
  | none => .error .taskNotFound
  | some task =>
    if task.status ≠ .pending ∧ task.status ≠ .paused then
      .error .invalidState
    else if maxConcurrentTasks ≤ countDownloading st.tasks then
      .error .queueFull
    else
      .ok ⟨st.tasks.map (startUpdate taskId now)⟩

/-! ### Retry backoff, from `src/utils/retry-utils.ts` -/

/-- `RetryOptions` from `src/utils/retry-utils.ts`.  Delay-related fields are
JS numbers used in fractional arithmetic, hence `ℚ`. -/
structure RetryOptions where
  maxRetries : Nat
  baseDelay : ℚ
  maxDelay : ℚ
  backoffFactor : ℚ
  jitter : Bool

/-- `DEFAULT_RETRY_OPTIONS`. -/
def DEFAULT_RETRY_OPTIONS : RetryOptions :=
  { maxRetries := 3, baseDelay := 1000, maxDelay := 30000,
    backoffFactor := 2, jitter := true }

/-- `RetryUtils.fileRetryStrategy()`: `baseDelay = 500`,
`backoffFactor = 1.5`, `maxDelay = 5000`, no jitter. -/
def fileRetryStrategyOptions : RetryOptions :=
  { maxRetries := 3, baseDelay := 500, maxDelay := 5000,
    backoffFactor := 3 / 2, jitter := false }

/-- `RetryUtils.calculateDelay` (`src/utils/retry-utils.ts`, lines 76–88):
`delay = base * factor^(attempt-1)`, capped at `maxDelay`, multiplied by
`0.5 + Math.random() * 0.5` when jitter is on, then `Math.floor`ed.  The
`Math.random()` draw is the explicit argument `rand ∈ [0, 1)`. -/
def calculateDelay (attempt : Nat) (options : RetryOptions) (rand : ℚ) : ℤ :=
  let d1 := options.baseDelay * options.backoffFactor ^ (attempt - 1)
  let d2 := min d1 options.maxDelay
  let d3 := if options.jitter then d2 * (1 / 2 + rand * (1 / 2)) else d2
  Int.floor d3

/-! ### Resume store, from `src/config/download-config.ts` (ResumeManager) -/

/-- `ResumeData` from `src/config/download-config.ts`. -/
structure ResumeData where
  version : String
  taskId : String
  url : String
  outputPath : String
  totalSize : Nat
  segments : List DownloadSegment
  checksum : Option String := none
  lastModified : Option String := none
  etag : Option String := none
  createdAt : Nat
  updatedAt : Nat
  deriving DecidableEq, Repr, Inhabited

/-- JS truthiness of an optional string: `undefined` and `""` are falsy. -/
def jsTruthy : Option String → Bool
  | none => false
  | some s => s != ""

/-- File-existence oracle standing for `fs.access`-based checks. -/
structure FileEnv where
  fileExists : String → Bool

/-- `ResumeManager.validatePartialFile` (`src/config/download-config.ts`,
lines 614–635): the output file exists, or some segment recorded as
`COMPLETED` still has its part file. -/
def validatePartialFile (env : FileEnv) (rd : ResumeData) : Bool :=
  let mainFileExists := env.fileExists rd.outputPath
  let hasValidSegments := rd.segments.any (fun s =>
    s.status == DownloadStatus.completed && env.fileExists s.filePath)
  mainFileExists || hasValidSegments

/-- `ResumeManager.hasServerFileChanged` (`src/config/download-config.ts`,
lines 640–658): compare ETags when both are truthy, else Last-Modified when
both are truthy, else assume unchanged. -/
def hasServerFileChanged (task : DownloadTask) (rd : ResumeData) : Bool :=
  if jsTruthy rd.etag && jsTruthy task.metadata.etag then
    rd.etag != task.metadata.etag
  else if jsTruthy rd.lastModified && jsTruthy task.metadata.lastModified then
    rd.lastModified != task.metadata.lastModified
  else
    false

/-- `ResumeManager.canResume` (`src/config/download-config.ts`, lines
467–501).  `loaded` is the result of `loadResumeData(task.id)` (`none` when
the record file is missing or unparsable). -/
def canResume (env : FileEnv) (task : DownloadTask)
    (loaded : Option ResumeData) : Bool :=
  if !task.config.enableResume then false
  else
    match loaded with
    | none => false
    | some rd =>
      if rd.url != task.config.url then false
      else if !env.fileExists rd.outputPath then false
      else if !validatePartialFile env rd then false
      else if hasServerFileChanged task rd then false
      else true

/-- File-system writes and renames, for observing how the resume record is
persisted. -/
inductive FsOp
  | writeFile (path content : String)
  | rename (src dst : String)
  deriving DecidableEq, Repr

/-- `ResumeManager.getResumeFilePath`: `join(resumeDir, taskId + ".resume.json")`. -/
def getResumeFilePath (resumeDir taskId : String) : String :=
  resumeDir ++ "/" ++ taskId ++ ".resume.json"

/-- The `ResumeData` record `ResumeManager.saveResumeData` assembles from a
task.  `checksumOf` stands for `calculateFileChecksum` (an MD5 of the output
file when it exists, `undefined` otherwise). -/
def resumeRecordOf (checksumOf : String → Option String) (task : DownloadTask)
    (now : Nat) : ResumeData :=
  { version := "2.0"
    taskId := task.id
    url := task.config.url
    outputPath := task.config.outputPath
    totalSize := task.progress.totalSize
    segments := task.progress.segments
    checksum := checksumOf task.config.outputPath
    lastModified := task.metadata.lastModified
    etag := task.metadata.etag
    createdAt := task.createdAt
    updatedAt := now }

/-- `ResumeManager.saveResumeData` (`src/config/download-config.ts`, lines
422–448), as the list of file-system operations it performs: no-op when
resume is disabled, otherwise a single `fs.writeFile` of the JSON-serialized
record straight to `{taskId}.resume.json`. -/
def saveResumeDataOps (serialize : ResumeData → String)
    (checksumOf : String → Option String) (resumeDir : String)
    (task : DownloadTask) (now : Nat) : List FsOp :=
  if !task.config.enableResume then []
  else
    [FsOp.writeFile (getResumeFilePath resumeDir task.id)
      (serialize (resumeRecordOf checksumOf task now))]

/-! ### Integrity verifier, from `src/core/integrity-verifier.ts` -/

/-- `VerificationOptions` from `src/core/integrity-verifier.ts`. -/
structure VerificationOptions where
  algorithm : String
  expectedChecksum : Option String := none
  chunkSize : Option Nat := none
  deriving DecidableEq, Repr, Inhabited

/-- `VerificationResult` from `src/core/integrity-verifier.ts`. -/
structure VerificationResult where
  isValid : Bool
  actualChecksum : String
  expectedChecksum : Option String := none
  algorithm : String
  fileSize : Nat
  verificationTime : Nat
  errorMessage : Option String := none
  deriving DecidableEq, Repr, Inhabited

/-- The slice of `fs.Stats` that `verifyFile` reads. -/
structure FileStats where
  isFile : Bool
  size : Nat
  deriving DecidableEq, Repr, Inhabited

/-- Environment for `verifyFile`: `fs.stat` (which may throw, e.g. ENOENT)
and `calculateFileChecksum` (whose read stream may error). -/
structure VerifyEnv where
  stat : String → Except String FileStats
  checksum : String → String → Except String String

/-- JS `String.prototype.toLowerCase` on the ASCII strings these functions
compare: lowercases each character. -/
def lowerStr (s : String) : String := ⟨s.data.map Char.toLower⟩

/-- `IntegrityVerifier.SUPPORTED_ALGORITHMS`. -/
def SUPPORTED_ALGORITHMS : List String := ["md5", "sha1", "sha256", "sha512"]

/-- `IntegrityVerifier.isAlgorithmSupported`
(`src/core/integrity-verifier.ts`, lines 301–303). -/
def isAlgorithmSupported (algorithm : String) : Bool :=
  SUPPORTED_ALGORITHMS.contains (lowerStr algorithm)

/-- The catch-branch result of `verifyFile`. -/
def verifyFileErrorResult (options : VerificationOptions) (elapsed : Nat)
    (msg : String) : VerificationResult :=
  { isValid := false
    actualChecksum := ""
    expectedChecksum := options.expectedChecksum
    algorithm := options.algorithm
    fileSize := 0
    verificationTime := elapsed
    errorMessage := some msg }

/-- `IntegrityVerifier.verifyFile` (`src/core/integrity-verifier.ts`, lines
39–89).  Every thrown error is caught and turned into an error result.  The
validity test is the source's
`options.expectedChecksum ? actual.toLowerCase() === expected.toLowerCase() : true`,
where a JS falsy expected checksum (absent or empty) yields `true`. -/
def verifyFile (env : VerifyEnv) (filePath : String)
    (options : VerificationOptions) (elapsed : Nat) : VerificationResult :=
  if !isAlgorithmSupported options.algorithm then
    verifyFileErrorResult options elapsed
      ("Unsupported hash algorithm: " ++ options.algorithm)
  else
    match env.stat filePath with
    | .error m => verifyFileErrorResult options elapsed m
    | .ok stats =>
      if !stats.isFile then
        verifyFileErrorResult options elapsed ("Path is not a file: " ++ filePath)
      else
        match env.checksum filePath options.algorithm with
        | .error m => verifyFileErrorResult options elapsed m
        | .ok actual =>
          let isValid := match options.expectedChecksum with
            | some e => if e != "" then lowerStr actual == lowerStr e else true
            | none => true
          { isValid := isValid
            actualChecksum := actual
            expectedChecksum := options.expectedChecksum
            algorithm := options.algorithm
            fileSize := stats.size
            verificationTime := elapsed
            errorMessage := none }

/-! ### Concrete instances used in counterexamples and witnesses -/

/-- A valid download config with all zod defaults. -/
def sampleConfig : DownloadConfig :=
  { url := "http://host/x.bin", outputPath := "/tmp/x.bin" }

/-- A task over `sampleConfig` in a given status. -/
def sampleTask (status : DownloadStatus) : DownloadTask :=
  { id := "t1"
    config := sampleConfig
    status := status
    progress := { taskId := "t1", totalSize := 1000, downloadedSize := 0, segments := [] }
    createdAt := 0
    updatedAt := 0
    metadata := {} }

/-- A segment that is halfway through its range. -/
def c2seg : DownloadSegment :=
  { id := "segment_0", start := 0, endPos := 999, downloaded := 100,
    status := .downloading, filePath := "/tmp/x.bin.part0" }

/-- The second segment of the spec's four-segment scenario: its `Range`
offset is non-zero. -/
def c3seg : DownloadSegment :=
  { id := "segment_1", start := 1000000, endPos := 1999999, downloaded := 0,
    status := .downloading, filePath := "/tmp/x.bin.part1" }

/-- An integrity section requesting a SHA-256 check against a fixed
expected checksum. -/
def integrityConfig1 : IntegrityConfig :=
  { enabled := true, algorithm := "sha256", expectedChecksum := some "deadbeef",
    enableSegmentVerification := false, enableRealTimeVerification := false,
    verifyAfterMerge := true }

/-- A downloading task whose config sets `integrity.expectedChecksum`. -/
def c1task : DownloadTask :=
  { sampleTask .downloading with
    config := { sampleConfig with integrity := some integrityConfig1 } }

/-- A file environment in which every path exists. -/
def env8 : FileEnv := ⟨fun _ => true⟩

/-- A pending task whose fresh HEAD metadata reports `contentLength = 1000`
and ETag `"e1"`. -/
def c8task : DownloadTask :=
  { id := "t8"
    config := { url := "http://host/f.bin", outputPath := "/d/f.bin" }
    status := .pending
    progress := { taskId := "t8", totalSize := 1000, downloadedSize := 0, segments := [] }
    createdAt := 0
    updatedAt := 0
    metadata := { contentLength := some 1000, etag := some "e1", supportsRange := true } }

/-- A persisted resume record for `c8task` whose `totalSize` disagrees with
the fresh HEAD content length but whose URL and ETag match. -/
def c8record : ResumeData :=
  { version := "2.0", taskId := "t8", url := "http://host/f.bin",
    outputPath := "/d/f.bin", totalSize := 999, segments := [],
    etag := some "e1", createdAt := 0, updatedAt := 0 }

/-- A verify environment where the path is a 3-byte regular file of digest
`"abc"`. -/
def env10 : VerifyEnv :=
  { stat := fun _ => .ok { isFile := true, size := 3 }
    checksum := fun _ _ => .ok "abc" }

/-- A manager state holding a single pending task. -/
def stW : DMState := ⟨[sampleTask .pending]⟩

/-- The manager state after successfully starting `stW`'s task at time 1. -/
def stW2 : DMState :=
  ⟨[{ sampleTask .pending with
      status := .downloading, startedAt := some 1, updatedAt := 1 }]⟩

/-! ## Theorems -/

/-! ### Claim C2 — segment worker Range header -/

/-- Claim C2 is false on the code: for the segment `c2seg` with
`downloaded = 100`, the worker's fetch sends `Range: bytes=0-999`
(built from `segment.start` and `segment.end` alone), not the claimed
`bytes={start+downloaded}-{end} = bytes=100-999`, so the 100
already-downloaded bytes are re-requested. -/
theorem c2_range_counterexample :
    c2seg.downloaded = 100 ∧
    workerRangeHeader c2seg = "bytes=0-999" ∧
    specRangeHeader c2seg = "bytes=100-999" ∧
    workerRangeHeader c2seg ≠ specRangeHeader c2seg := by
  refine ⟨rfl, rfl, rfl, ?_⟩
  decide

/-- Claim C2 amended: every fetch attempt of the in-string worker requests
`Range: bytes={start}-{end}` — the header is computed from the segment
bounds alone and is independent of `downloaded` — and the part file is
opened truncating, so earlier content is overwritten rather than preserved;
the request agrees with the claimed `bytes={start+downloaded}-{end}` exactly
in the fresh case `downloaded = 0`. -/
theorem c2_range_ignores_downloaded (seg : DownloadSegment) (d : Nat) :
    workerRangeHeader { seg with downloaded := d } =
      "bytes=" ++ toString seg.start ++ "-" ++ toString seg.endPos ∧
    workerRangeHeader { seg with downloaded := d } =
      specRangeHeader { seg with downloaded := 0 } ∧
    workerOpenMode = WriteMode.truncate := by
  refine ⟨rfl, ?_, rfl⟩
  simp [workerRangeHeader, specRangeHeader]

/-! ### Claim C3 — acceptance of non-206 statuses -/

/-- Claim C3 names a real slip in the code: the worker's only status check
is `response.ok`, so a `200` answer to the ranged request for `c3seg`
(whose `Range` offset 1000000 is non-zero) is accepted and its body is
streamed into the truncated part file, even though the spec's acceptance
rule rejects it; `206` and every other 2xx status are likewise accepted. -/
theorem c3_accepts_bare_200 :
    workerAcceptsStatus 200 = true ∧
    workerAcceptsStatus 206 = true ∧
    workerAcceptsStatus 204 = true ∧
    workerRangeHeader c3seg = "bytes=1000000-1999999" ∧
    ¬ specAcceptsStatus c3seg 200 false := by
  refine ⟨rfl, rfl, rfl, by decide, ?_⟩
  intro h
  rcases h with h | ⟨_, _, h⟩
  · exact absurd h (by decide)
  · exact absurd h (by decide)

/-! ### Claim C5 — idempotent cancel / pause -/

/-- Claim C5 is false on the code for its pause half: invoking the pause
tool on a task already in `Paused` leaves the task unchanged but returns
`success = false` with error code `INVALID_STATUS`, i.e. it does report an
error. -/
theorem c5_pause_counterexample :
    (pauseToolExecute (sampleTask .paused) 7).1.success = false ∧
    (pauseToolExecute (sampleTask .paused) 7).1.errorCode =
      some "INVALID_STATUS" ∧
    (pauseToolExecute (sampleTask .paused) 7).2 = sampleTask .paused := by
  exact ⟨rfl, rfl, rfl⟩

/-- Claim C5 amended: cancel on a `Cancelled` task is a no-op that succeeds
(state unchanged, no error), but pause on a `Paused` task, while leaving the
task state unchanged, is rejected with an `INVALID_STATUS` error rather than
being accepted as a no-op. -/
theorem c5_cancel_noop_pause_rejected (t : DownloadTask) (now : Nat) :
    (t.status = .cancelled →
      cancelToolExecute t now =
        ({ success := true, newStatus := some .cancelled }, t)) ∧
    (t.status = .paused →
      pauseToolExecute t now =
        ({ success := false, errorCode := some "INVALID_STATUS" }, t)) := by
  constructor
  · intro h
    simp [cancelToolExecute, h]
  · intro h
    simp [pauseToolExecute, h]

/-- Witness for `c5_cancel_noop_pause_rejected` at concrete tasks. -/
theorem c5_cancel_noop_pause_rejected_witness :
    cancelToolExecute (sampleTask .cancelled) 3 =
      ({ success := true, newStatus := some .cancelled }, sampleTask .cancelled) ∧
    pauseToolExecute (sampleTask .paused) 3 =
      ({ success := false, errorCode := some "INVALID_STATUS" }, sampleTask .paused) :=
  ⟨(c5_cancel_noop_pause_rejected (sampleTask .cancelled) 3).1 rfl,
    (c5_cancel_noop_pause_rejected (sampleTask .paused) 3).2 rfl⟩

/-! ### Claim C9 — atomic resume-record writes -/

/-- Claim C9 is false on the code: saving a resume record is a single
direct `fs.writeFile` to `{task_id}.resume.json`; it is not a write to a
temporary file followed by a rename. -/
theorem c9_not_atomic_counterexample :
    saveResumeDataOps (fun _ => "") (fun _ => none) "./.download-resume"
        (sampleTask .downloading) 5 =
      [FsOp.writeFile (getResumeFilePath "./.download-resume" "t1") ""] ∧
    ¬ ∃ tmp content,
      saveResumeDataOps (fun _ => "") (fun _ => none) "./.download-resume"
          (sampleTask .downloading) 5 =
        [FsOp.writeFile tmp content,
          FsOp.rename tmp
            (getResumeFilePath "./.download-resume" (sampleTask .downloading).id)] := by
  constructor
  · rfl
  · rintro ⟨tmp, content, h⟩
    simp [saveResumeDataOps, sampleTask, sampleConfig] at h

/-- Claim C9 amended: when resume is enabled, `saveResumeData` performs
exactly one file-system operation — a direct `writeFile` of the serialized
record to `{resumeDir}/{task_id}.resume.json` — and in particular performs
no rename; when resume is disabled it performs no operation at all.  A
crash mid-write can therefore leave a truncated record in place of the
previous one. -/
theorem c9_save_is_single_direct_write (serialize : ResumeData → String)
    (checksumOf : String → Option String) (resumeDir : String)
    (task : DownloadTask) (now : Nat) :
    (task.config.enableResume = true →
      saveResumeDataOps serialize checksumOf resumeDir task now =
        [FsOp.writeFile (getResumeFilePath resumeDir task.id)
          (serialize (resumeRecordOf checksumOf task now))]) ∧
    (task.config.enableResume = false →
      saveResumeDataOps serialize checksumOf resumeDir task now = []) ∧
    (∀ op ∈ saveResumeDataOps serialize checksumOf resumeDir task now,
      ∀ src dst, op ≠ FsOp.rename src dst) := by
  refine ⟨fun h => by simp [saveResumeDataOps, h], fun h => by simp [saveResumeDataOps, h], ?_⟩
  intro op hop src dst
  unfold saveResumeDataOps at hop
  rcases henable : task.config.enableResume with _ | _ <;> simp [henable] at hop
  subst hop
  simp

/-- Witness for `c9_save_is_single_direct_write` at a concrete task. -/
theorem c9_save_is_single_direct_write_witness :
    saveResumeDataOps (fun _ => "rec") (fun _ => none) "./.download-resume"
        (sampleTask .downloading) 5 =
      [FsOp.writeFile
        (getResumeFilePath "./.download-resume" (sampleTask .downloading).id)
        ((fun _ => "rec")
          (resumeRecordOf (fun _ => none) (sampleTask .downloading) 5))] :=
  (c9_save_is_single_direct_write (fun _ => "rec") (fun _ => none)
    "./.download-resume" (sampleTask .downloading) 5).1 rfl

/-! ### Claim C1 — integrity gate on completion -/

/-- Claim C1 is false on the code: `c1task` sets
`integrity.expectedChecksum = "deadbeef"`, any digest such as `"00"`
differs from it, and yet the downloader's `completed` handler marks the
task `Completed` (and not `Failed`): no digest is computed and completion
is not gated. -/
theorem c1_gate_counterexample :
    c1task.config.integrity = some integrityConfig1 ∧
    integrityConfig1.expectedChecksum = some "deadbeef" ∧
    "00" ≠ "deadbeef" ∧
    (onDownloaderCompleted c1task 9).status = DownloadStatus.completed ∧
    (onDownloaderCompleted c1task 9).status ≠ DownloadStatus.failed := by
  refine ⟨rfl, rfl, by decide, rfl, by decide⟩

/-- Claim C1 amended: the download pipeline has no integrity gate — the
merge step computes no digest and the `completed` handler transitions every
task to `Completed` unconditionally, whatever its integrity configuration
and whatever the actual digest of the merged file turns out to be; a
`ChecksumMismatch` failure is never produced. -/
theorem c1_completion_unconditional (task : DownloadTask) (now : Nat)
    (digest expected : String) (_hmismatch : digest ≠ expected) :
    (onDownloaderCompleted task now).status = DownloadStatus.completed ∧
    (onDownloaderCompleted task now).status ≠ DownloadStatus.failed ∧
    (onDownloaderCompleted task now).completedAt = some now := by
  refine ⟨rfl, by simp [onDownloaderCompleted], rfl⟩

/-- Witness for `c1_completion_unconditional` at a concrete mismatching
digest. -/
theorem c1_completion_unconditional_witness :
    ("00" : String) ≠ "deadbeef" ∧
    (onDownloaderCompleted c1task 9).status = DownloadStatus.completed ∧
    (onDownloaderCompleted c1task 9).status ≠ DownloadStatus.failed ∧
    (onDownloaderCompleted c1task 9).completedAt = some 9 :=
  ⟨by decide, c1_completion_unconditional c1task 9 "00" "deadbeef" (by decide)⟩

/-! ### Claim C7 — retry backoff delay -/

/-- Claim C7 is false as stated on the code: with the repo's own
`fileRetryStrategy` options (`base = 500`, `factor = 1.5`, `maxDelay =
5000`, jitter off) at attempt 4, the code's `Math.floor` makes the computed
delay 1687 ms, while `min(base × factor^(attempt-1), max_delay) = 1687.5`. -/
theorem c7_delay_counterexample :
    ((calculateDelay 4 fileRetryStrategyOptions 0 : ℤ) : ℚ) ≠
      min (fileRetryStrategyOptions.baseDelay *
        fileRetryStrategyOptions.backoffFactor ^ (4 - 1))
        fileRetryStrategyOptions.maxDelay := by
  have hmin : min (fileRetryStrategyOptions.baseDelay *
      fileRetryStrategyOptions.backoffFactor ^ (4 - 1))
      fileRetryStrategyOptions.maxDelay = 3375 / 2 := by
    norm_num [fileRetryStrategyOptions, min_def]
  have hfloor : calculateDelay 4 fileRetryStrategyOptions 0 = 1687 := by
    have h1 : calculateDelay 4 fileRetryStrategyOptions 0 =
        Int.floor ((3375 : ℚ) / 2) := by
      simp only [calculateDelay, fileRetryStrategyOptions]
      norm_num [min_def]
    rw [h1]
    exact Int.floor_eq_iff.mpr (by norm_num)
  rw [hfloor, hmin]
  norm_num

/-- Claim C7 amended: the computed retry delay is
`⌊min(base × factor^(attempt-1), max_delay)⌋` when jitter is disabled
(the code applies `Math.floor` to the capped value), and for every jitter
outcome `rand ∈ [0,1)` the delay never exceeds `max_delay`, given
nonnegative base, factor and cap. -/
theorem c7_delay_capped (attempt : Nat) (options : RetryOptions) (rand : ℚ)
    (_hrand0 : 0 ≤ rand) (hrand1 : rand < 1)
    (hbase : 0 ≤ options.baseDelay) (hfac : 0 ≤ options.backoffFactor)
    (hmax : 0 ≤ options.maxDelay) :
    (options.jitter = false →
      calculateDelay attempt options rand =
        Int.floor (min (options.baseDelay *
          options.backoffFactor ^ (attempt - 1)) options.maxDelay)) ∧
    ((calculateDelay attempt options rand : ℚ) ≤ options.maxDelay) := by
  constructor
  · intro h
    simp [calculateDelay, h]
  · unfold calculateDelay
    have hd1 : 0 ≤ options.baseDelay * options.backoffFactor ^ (attempt - 1) :=
      mul_nonneg hbase (pow_nonneg hfac _)
    have hd2le : min (options.baseDelay * options.backoffFactor ^ (attempt - 1))
        options.maxDelay ≤ options.maxDelay := min_le_right _ _
    have hd2nn : 0 ≤ min (options.baseDelay * options.backoffFactor ^ (attempt - 1))
        options.maxDelay := le_min hd1 hmax
    rcases hj : options.jitter with _ | _
    · simp only [hj, if_neg Bool.false_ne_true]
      exact le_trans (Int.floor_le _) hd2le
    · simp only [hj, if_pos rfl]
      have hm1 : 1 / 2 + rand * (1 / 2) ≤ 1 := by linarith
      have hprod : min (options.baseDelay * options.backoffFactor ^ (attempt - 1))
          options.maxDelay * (1 / 2 + rand * (1 / 2)) ≤
          min (options.baseDelay * options.backoffFactor ^ (attempt - 1))
            options.maxDelay :=
        mul_le_of_le_one_right hd2nn hm1
      exact le_trans (Int.floor_le _) (le_trans hprod hd2le)

/-- Witness for `c7_delay_capped`: the jitter-free equation at the file
retry strategy's attempt 1, and the cap with the default options under the
jitter draw `rand = 1/2`. -/
theorem c7_delay_capped_witness :
    (calculateDelay 1 fileRetryStrategyOptions 0 =
      Int.floor (min (fileRetryStrategyOptions.baseDelay *
        fileRetryStrategyOptions.backoffFactor ^ (1 - 1))
        fileRetryStrategyOptions.maxDelay)) ∧
    ((calculateDelay 2 DEFAULT_RETRY_OPTIONS (1 / 2) : ℚ) ≤
      DEFAULT_RETRY_OPTIONS.maxDelay) :=
  ⟨(c7_delay_capped 1 fileRetryStrategyOptions 0 (by norm_num) (by norm_num)
      (by norm_num [fileRetryStrategyOptions]) (by norm_num [fileRetryStrategyOptions])
      (by norm_num [fileRetryStrategyOptions])).1 rfl,
    (c7_delay_capped 2 DEFAULT_RETRY_OPTIONS (1 / 2) (by norm_num) (by norm_num)
      (by norm_num [DEFAULT_RETRY_OPTIONS]) (by norm_num [DEFAULT_RETRY_OPTIONS])
      (by norm_num [DEFAULT_RETRY_OPTIONS])).2⟩

/-! ### Claim C10 — verifyFile -/

/-- Claim C10 is false on the code in its "supplied checksum" clause: with
an empty expected checksum (a supplied value), JS truthiness routes
`verifyFile` to the no-expectation branch, so `isValid = true` even though
the case-insensitive comparison of the actual digest `"abc"` with `""` is
false. -/
theorem c10_empty_expected_counterexample :
    (verifyFile env10 "f"
      { algorithm := "sha256", expectedChecksum := some "" } 7).isValid = true ∧
    (verifyFile env10 "f"
      { algorithm := "sha256", expectedChecksum := some "" } 7).actualChecksum = "abc" ∧
    lowerStr "abc" ≠ lowerStr "" := by
  refine ⟨by decide, by decide, by decide⟩

/-- Claim C10 amended: `verifyFile` is total and returns a
`VerificationResult` on every input; on an unsupported algorithm, a failing
`stat`, or a path that is not a regular file, the result has
`isValid = false`, `actualChecksum = ""`, `fileSize = 0` and `errorMessage`
set (to a non-empty message in the two in-code cases); when a *non-empty*
expected checksum is supplied, `isValid` is the case-insensitive equality of
the actual and expected checksums; when no expected checksum — or an empty
one — is supplied, `isValid = true`. -/
theorem c10_verifyFile_cases (env : VerifyEnv) (filePath : String)
    (options : VerificationOptions) (elapsed : Nat) :
    (isAlgorithmSupported options.algorithm = false →
      verifyFile env filePath options elapsed =
        verifyFileErrorResult options elapsed
          ("Unsupported hash algorithm: " ++ options.algorithm) ∧
      ("Unsupported hash algorithm: " ++ options.algorithm) ≠ "") ∧
    (∀ m, isAlgorithmSupported options.algorithm = true →
      env.stat filePath = .error m →
      verifyFile env filePath options elapsed =
        verifyFileErrorResult options elapsed m) ∧
    (∀ stats, isAlgorithmSupported options.algorithm = true →
      env.stat filePath = .ok stats → stats.isFile = false →
      verifyFile env filePath options elapsed =
        verifyFileErrorResult options elapsed ("Path is not a file: " ++ filePath) ∧
      ("Path is not a file: " ++ filePath) ≠ "") ∧
    (∀ stats actual e, isAlgorithmSupported options.algorithm = true →
      env.stat filePath = .ok stats → stats.isFile = true →
      env.checksum filePath options.algorithm = .ok actual →
      options.expectedChecksum = some e → e ≠ "" →
      (verifyFile env filePath options elapsed).isValid =
        (lowerStr actual == lowerStr e) ∧
      (verifyFile env filePath options elapsed).actualChecksum = actual ∧
      (verifyFile env filePath options elapsed).fileSize = stats.size) ∧
    (∀ stats actual, isAlgorithmSupported options.algorithm = true →
      env.stat filePath = .ok stats → stats.isFile = true →
      env.checksum filePath options.algorithm = .ok actual →
      (options.expectedChecksum = none ∨ options.expectedChecksum = some "") →
      (verifyFile env filePath options elapsed).isValid = true) := by
  refine ⟨?_, ?_, ?_, ?_, ?_⟩
  · intro h
    refine ⟨by simp [verifyFile, h], ?_⟩
    intro hcontra
    have hlen := congrArg String.length hcontra
    rw [String.length_append] at hlen
    have h1 : ¬ (("Unsupported hash algorithm: ").length = 0) := by decide
    simp at hlen
    exact h1 hlen.1
  · intro m halg hstat
    simp [verifyFile, halg, hstat]
  · intro stats halg hstat hfile
    refine ⟨by simp [verifyFile, halg, hstat, hfile], ?_⟩
    intro hcontra
    have hlen := congrArg String.length hcontra
    rw [String.length_append] at hlen
    have h1 : ¬ (("Path is not a file: ").length = 0) := by decide
    simp at hlen
    exact h1 hlen.1
  · intro stats actual e halg hstat hfile hck hexp hne
    simp [verifyFile, halg, hstat, hfile, hck, hexp, hne]
  · intro stats actual halg hstat hfile hck hexp
    rcases hexp with hexp | hexp <;> simp [verifyFile, halg, hstat, hfile, hck, hexp]

/-- Witness for `c10_verifyFile_cases` over `env10`: an unsupported
algorithm, a non-empty expected checksum, and an absent expected checksum. -/
theorem c10_verifyFile_cases_witness :
    (verifyFile env10 "f" { algorithm := "md4" } 1 =
      verifyFileErrorResult { algorithm := "md4" } 1
        ("Unsupported hash algorithm: " ++ "md4")) ∧
    ((verifyFile env10 "f"
        { algorithm := "sha256", expectedChecksum := some "ABC" } 1).isValid =
      (lowerStr "abc" == lowerStr "ABC")) ∧
    ((verifyFile env10 "f" { algorithm := "sha256" } 1).isValid = true) :=
  ⟨((c10_verifyFile_cases env10 "f" { algorithm := "md4" } 1).1 (by decide)).1,
    ((c10_verifyFile_cases env10 "f"
        { algorithm := "sha256", expectedChecksum := some "ABC" } 1).2.2.2.1
      ⟨true, 3⟩ "abc" "ABC" (by decide) rfl rfl rfl rfl (by decide)).1,
    (c10_verifyFile_cases env10 "f" { algorithm := "sha256" } 1).2.2.2.2
      ⟨true, 3⟩ "abc" (by decide) rfl rfl rfl (Or.inl rfl)⟩

/-! ### Claim C8 — resume-record validation -/

/-- Claim C8 is false on the code: `c8record`'s `totalSize` (999) disagrees
with the fresh HEAD content length of `c8task` (1000), yet `canResume`
adopts the record — no total-size comparison is performed (and no removal of
the record happens either; `canResume` only returns a boolean). -/
theorem c8_stale_record_counterexample :
    canResume env8 c8task (some c8record) = true ∧
    c8task.metadata.contentLength = some 1000 ∧
    c8record.totalSize = 999 := by
  refine ⟨by decide, rfl, rfl⟩

/-- Claim C8 amended: a persisted record is adopted iff resume is enabled,
its URL matches, the *output file* exists (this check precedes — and
subsumes — the partial-data check), the ETag is unchanged whenever both
sides carry a truthy one, and otherwise the Last-Modified is unchanged
whenever both sides carry a truthy one.  `total_size` is never compared,
and a record failing validation is not removed — the task is simply
re-planned while the stale record stays on disk. -/
theorem c8_canResume_characterization (env : FileEnv) (task : DownloadTask)
    (rd : ResumeData) :
    canResume env task (some rd) = true ↔
      (task.config.enableResume = true ∧
        rd.url = task.config.url ∧
        env.fileExists rd.outputPath = true ∧
        (jsTruthy rd.etag = true → jsTruthy task.metadata.etag = true →
          rd.etag = task.metadata.etag) ∧
        (¬(jsTruthy rd.etag = true ∧ jsTruthy task.metadata.etag = true) →
          jsTruthy rd.lastModified = true →
          jsTruthy task.metadata.lastModified = true →
          rd.lastModified = task.metadata.lastModified)) := by
  unfold canResume validatePartialFile hasServerFileChanged
  by_cases hu : rd.url = task.config.url <;>
  by_cases hei : rd.etag = task.metadata.etag <;>
  by_cases hlmi : rd.lastModified = task.metadata.lastModified <;>
  cases he : task.config.enableResume <;>
  cases hfe : env.fileExists rd.outputPath <;>
  cases het1 : jsTruthy rd.etag <;>
  cases het2 : jsTruthy task.metadata.etag <;>
  cases hlm1 : jsTruthy rd.lastModified <;>
  cases hlm2 : jsTruthy task.metadata.lastModified <;>
  simp_all [bne_iff_ne]

/-- Witness for `c8_canResume_characterization`: the matching record
`c8record` is adopted for `c8task`. -/
theorem c8_canResume_characterization_witness :
    canResume env8 c8task (some c8record) = true :=
  (c8_canResume_characterization env8 c8task c8record).mpr
    ⟨rfl, rfl, rfl, fun _ _ => rfl, fun h _ _ => absurd ⟨rfl, rfl⟩ h⟩

/-! ### Claim C6 — start gate and the concurrent-task cap -/

/-- Marking the matching task `DOWNLOADING` raises the downloading count by
at most the number of entries carrying the started id. -/
theorem countDownloading_map_start_le (tasks : List DownloadTask)
    (taskId : String) (now : Nat) :
    countDownloading (tasks.map (startUpdate taskId now)) ≤
      countDownloading tasks + tasks.countP (fun t => t.id == taskId) := by
  induction tasks with
  | nil => simp [countDownloading]
  | cons a l ih =>
    simp only [countDownloading, List.map_cons, List.countP_cons] at ih ⊢
    have hstep :
        (if ((startUpdate taskId now a).status == DownloadStatus.downloading) = true
          then (1 : Nat) else 0) ≤
        (if (a.status == DownloadStatus.downloading) = true then (1 : Nat) else 0) +
          (if (a.id == taskId) = true then (1 : Nat) else 0) := by
      unfold startUpdate
      by_cases ha : (a.id == taskId) = true
      · simp [ha]
      · simp [ha]
    omega

/-- With `Map`-unique ids, at most one entry carries any given id. -/
theorem countP_id_le_one (tasks : List DownloadTask) (taskId : String)
    (hnd : (tasks.map (fun t => t.id)).Nodup) :
    tasks.countP (fun t => t.id == taskId) ≤ 1 := by
  induction tasks with
  | nil => simp
  | cons a l ih =>
    simp only [List.map_cons, List.nodup_cons] at hnd
    rw [List.countP_cons]
    by_cases ha : (a.id == taskId) = true
    · have hzero : l.countP (fun t => t.id == taskId) = 0 := by
        rw [List.countP_eq_zero]
        intro t ht hcontra
        rw [beq_iff_eq] at ha hcontra
        exact hnd.1 (List.mem_map.mpr ⟨t, ht, hcontra.trans ha.symm⟩)
      simp [ha, hzero]
    · rw [if_neg ha]
      have := ih hnd.2
      omega

/-- Claim C6: `startDownload` succeeds exactly when the task exists with
status `Pending` or `Paused` and fewer than `maxConcurrentTasks` (5) tasks
are `Downloading`; the queue-full error occurs exactly when the status
precondition holds but the cap is reached (and, the function being a pure
`Except`, an error leaves the state untouched); and any successful start
keeps the number of `Downloading` tasks at or below the cap. -/
theorem c6_start_gate (st : DMState) (taskId : String) (now : Nat)
    (hnd : (st.tasks.map (fun t => t.id)).Nodup) :
    ((∃ st2, startDownload st taskId now = .ok st2) ↔
      (∃ task, findTask st.tasks taskId = some task ∧
        (task.status = .pending ∨ task.status = .paused) ∧
        countDownloading st.tasks < maxConcurrentTasks)) ∧
    (startDownload st taskId now = .error .queueFull ↔
      (∃ task, findTask st.tasks taskId = some task ∧
        (task.status = .pending ∨ task.status = .paused) ∧
        maxConcurrentTasks ≤ countDownloading st.tasks)) ∧
    (∀ st2, startDownload st taskId now = .ok st2 →
      countDownloading st2.tasks ≤ maxConcurrentTasks) := by
  unfold startDownload
  cases hf : findTask st.tasks taskId with
  | none =>
    refine ⟨?_, ?_, ?_⟩
    · simp
    · simp
    · intro st2 h
      simp at h
  | some task =>
    by_cases hstat : task.status ≠ .pending ∧ task.status ≠ .paused
    · have hnot : ¬ (task.status = .pending ∨ task.status = .paused) := by
        rintro (h | h)
        · exact hstat.1 h
        · exact hstat.2 h
      refine ⟨?_, ?_, ?_⟩
      · simp only [if_pos hstat]
        constructor
        · rintro ⟨st2, h⟩
          simp at h
        · rintro ⟨task2, htask2, hst2, _⟩
          injection htask2 with htask2
          subst htask2
          exact absurd hst2 hnot
      · simp only [if_pos hstat]
        constructor
        · intro h
          simp at h
        · rintro ⟨task2, htask2, hst2, _⟩
          injection htask2 with htask2
          subst htask2
          exact absurd hst2 hnot
      · intro st2 h
        simp only [if_pos hstat] at h
        simp at h
    · have hor : task.status = .pending ∨ task.status = .paused := by
        by_cases h1 : task.status = .pending
        · exact Or.inl h1
        · by_cases h2 : task.status = .paused
          · exact Or.inr h2
          · exact absurd ⟨h1, h2⟩ hstat
      by_cases hcount : maxConcurrentTasks ≤ countDownloading st.tasks
      · refine ⟨?_, ?_, ?_⟩
        · simp only [if_neg hstat, if_pos hcount]
          constructor
          · rintro ⟨st2, h⟩
            simp at h
          · rintro ⟨task2, htask2, _, hlt⟩
            omega
        · simp only [if_neg hstat, if_pos hcount]
          exact ⟨fun _ => ⟨task, rfl, hor, hcount⟩, fun _ => trivial⟩
        · intro st2 h
          simp only [if_neg hstat, if_pos hcount] at h
          simp at h
      · refine ⟨?_, ?_, ?_⟩
        · simp only [if_neg hstat, if_neg hcount]
          constructor
          · intro _
            exact ⟨task, rfl, hor, by omega⟩
          · intro _
            exact ⟨_, rfl⟩
        · simp only [if_neg hstat, if_neg hcount]
          constructor
          · intro h
            simp at h
          · rintro ⟨task2, htask2, _, hge⟩
            omega
        · intro st2 h
          simp only [if_neg hstat, if_neg hcount, Except.ok.injEq] at h
          subst h
          dsimp only
          have h1 := countDownloading_map_start_le st.tasks taskId now
          have h2 := countP_id_le_one st.tasks taskId hnd
          omega

/-- Witness for `c6_start_gate` at the one-task state `stW`. -/
theorem c6_start_gate_witness :
    startDownload stW "t1" 1 = .ok stW2 ∧
    countDownloading stW2.tasks ≤ maxConcurrentTasks := by
  have h := (c6_start_gate stW "t1" 1 (by simp [stW])).2.2
  have hok : startDownload stW "t1" 1 = .ok stW2 := rfl
  exact ⟨hok, h stW2 hok⟩

/-! ### Claim C4 — the planners produce exact partitions

Helper lemmas about `generateSegmentsAux`, then about the formula-based
`calculateSegments`, then the claim theorem. -/

/-- One unfolding step of `generateSegmentsAux`. -/
theorem gsa_cons (totalSize chunkSize : Nat) (outputPath : String)
    (i m pos : Nat) :
    generateSegmentsAux totalSize chunkSize outputPath i (m + 1) pos =
      { id := "segment_" ++ toString i
        start := pos
        endPos := if m = 0 then totalSize - 1
          else min (pos + chunkSize - 1) (totalSize - 1)
        downloaded := 0
        status := .pending
        filePath := outputPath ++ ".part" ++ toString i
        checksum := some ""
        retryCount := some 0 } ::
      generateSegmentsAux totalSize chunkSize outputPath (i + 1) m
        ((if m = 0 then totalSize - 1
          else min (pos + chunkSize - 1) (totalSize - 1)) + 1) := rfl

/-- `generateSegmentsAux` produces exactly `n` segments. -/
theorem gsa_length (totalSize chunkSize : Nat) (outputPath : String) (n : Nat) :
    ∀ i pos,
      (generateSegmentsAux totalSize chunkSize outputPath i n pos).length = n := by
  induction n with
  | zero => intro i pos; rfl
  | succ m ih =>
    intro i pos
    rw [gsa_cons, List.length_cons, ih]

/-- Segment ids are `segment_{i+j}` in order. -/
theorem gsa_getD_id (totalSize chunkSize : Nat) (outputPath : String) (n : Nat) :
    ∀ i pos j, j < n →
      ((generateSegmentsAux totalSize chunkSize outputPath i n pos).getD j
        default).id = "segment_" ++ toString (i + j) := by
  induction n with
  | zero => intro i pos j h; exact absurd h (Nat.not_lt_zero j)
  | succ m ih =>
    intro i pos j h
    rw [gsa_cons]
    cases j with
    | zero => simp
    | succ k =>
      rw [List.getD_cons_succ, ih (i + 1) _ k (by omega)]
      have h2 : i + 1 + k = i + (k + 1) := by omega
      rw [h2]

/-- The first generated segment starts at the running position. -/
theorem gsa_getD_zero_start (totalSize chunkSize : Nat) (outputPath : String)
    (n i pos : Nat) (h : 0 < n) :
    ((generateSegmentsAux totalSize chunkSize outputPath i n pos).getD 0
      default).start = pos := by
  cases n with
  | zero => omega
  | succ m => rw [gsa_cons, List.getD_cons_zero]

/-- The last generated segment ends at `totalSize - 1`. -/
theorem gsa_getD_last_endPos (totalSize chunkSize : Nat) (outputPath : String)
    (n : Nat) :
    ∀ i pos, 0 < n →
      ((generateSegmentsAux totalSize chunkSize outputPath i n pos).getD (n - 1)
        default).endPos = totalSize - 1 := by
  induction n with
  | zero => intro i pos h; omega
  | succ m ih =>
    intro i pos _
    cases m with
    | zero =>
      rw [gsa_cons]
      simp
    | succ k =>
      rw [gsa_cons]
      simp only [Nat.add_sub_cancel, List.getD_cons_succ]
      exact ih (i + 1) _ (by omega)

/-- Consecutive generated segments are contiguous:
`next.start = prev.endPos + 1`. -/
theorem gsa_chain (totalSize chunkSize : Nat) (outputPath : String) (n : Nat) :
    ∀ i pos j, j + 1 < n →
      ((generateSegmentsAux totalSize chunkSize outputPath i n pos).getD (j + 1)
        default).start =
      ((generateSegmentsAux totalSize chunkSize outputPath i n pos).getD j
        default).endPos + 1 := by
  induction n with
  | zero => intro i pos j h; omega
  | succ m ih =>
    intro i pos j h
    have hm : 0 < m := by omega
    rw [gsa_cons]
    cases j with
    | zero =>
      rw [List.getD_cons_succ, List.getD_cons_zero]
      rw [gsa_getD_zero_start totalSize chunkSize outputPath m (i + 1) _ hm]
    | succ k =>
      rw [List.getD_cons_succ, List.getD_cons_succ]
      exact ih (i + 1) _ k (by omega)

/-- Every generated segment starts at or after the running position. -/
theorem gsa_start_ge (totalSize chunkSize : Nat) (outputPath : String)
    (hchunk : 0 < chunkSize) (_htotal : 0 < totalSize) (n : Nat) :
    ∀ i pos j, pos ≤ totalSize → j < n →
      pos ≤ ((generateSegmentsAux totalSize chunkSize outputPath i n pos).getD j
        default).start := by
  induction n with
  | zero => intro i pos j _ h; omega
  | succ m ih =>
    intro i pos j hpos h
    rw [gsa_cons]
    cases j with
    | zero =>
      rw [List.getD_cons_zero]
    | succ k =>
      rw [List.getD_cons_succ]
      have hmin1 : min (pos + chunkSize - 1) (totalSize - 1) ≤ totalSize - 1 :=
        min_le_right _ _
      have hmin2 : pos - 1 ≤ min (pos + chunkSize - 1) (totalSize - 1) := by
        rcases le_total (pos + chunkSize - 1) (totalSize - 1) with hle | hle
        · rw [min_eq_left hle]; omega
        · rw [min_eq_right hle]; omega
      have hkey : pos ≤ (if m = 0 then totalSize - 1
          else min (pos + chunkSize - 1) (totalSize - 1)) + 1 ∧
          (if m = 0 then totalSize - 1
          else min (pos + chunkSize - 1) (totalSize - 1)) + 1 ≤ totalSize := by
        split_ifs <;> omega
      exact le_trans hkey.1 (ih (i + 1) _ k hkey.2 (by omega))

/-- Every generated segment ends at or before `totalSize - 1`. -/
theorem gsa_endPos_le (totalSize chunkSize : Nat) (outputPath : String)
    (_htotal : 0 < totalSize) (n : Nat) :
    ∀ i pos j, j < n →
      ((generateSegmentsAux totalSize chunkSize outputPath i n pos).getD j
        default).endPos ≤ totalSize - 1 := by
  induction n with
  | zero => intro i pos j h; omega
  | succ m ih =>
    intro i pos j h
    rw [gsa_cons]
    cases j with
    | zero =>
      simp only [List.getD_cons_zero]
      have := min_le_right (pos + chunkSize - 1) (totalSize - 1)
      split_ifs <;> omega
    | succ k =>
      rw [List.getD_cons_succ]
      exact ih (i + 1) _ k (by omega)

/-- Every generated segment satisfies `start ≤ endPos + 1`. -/
theorem gsa_start_le_endPos_succ (totalSize chunkSize : Nat)
    (outputPath : String) (hchunk : 0 < chunkSize) (htotal : 0 < totalSize)
    (n : Nat) :
    ∀ i pos j, pos ≤ totalSize → j < n →
      ((generateSegmentsAux totalSize chunkSize outputPath i n pos).getD j
        default).start ≤
      ((generateSegmentsAux totalSize chunkSize outputPath i n pos).getD j
        default).endPos + 1 := by
  induction n with
  | zero => intro i pos j _ h; omega
  | succ m ih =>
    intro i pos j hpos h
    rw [gsa_cons]
    cases j with
    | zero =>
      simp only [List.getD_cons_zero]
      have hmin2 : pos - 1 ≤ min (pos + chunkSize - 1) (totalSize - 1) := by
        rcases le_total (pos + chunkSize - 1) (totalSize - 1) with hle | hle
        · rw [min_eq_left hle]; omega
        · rw [min_eq_right hle]; omega
      split_ifs <;> omega
    | succ k =>
      rw [List.getD_cons_succ]
      have hmin1 : min (pos + chunkSize - 1) (totalSize - 1) ≤ totalSize - 1 :=
        min_le_right _ _
      have hkey : (if m = 0 then totalSize - 1
          else min (pos + chunkSize - 1) (totalSize - 1)) + 1 ≤ totalSize := by
        split_ifs <;> omega
      exact ih (i + 1) _ k hkey (by omega)

/-- Each byte from the running position up to `totalSize - 1` lies in exactly
one generated segment. -/
theorem gsa_cover (totalSize chunkSize : Nat) (outputPath : String)
    (hchunk : 0 < chunkSize) (htotal : 0 < totalSize) (n : Nat) :
    ∀ i pos b, 0 < n → pos ≤ totalSize → pos ≤ b → b < totalSize →
      ∃! j, j < n ∧
        ((generateSegmentsAux totalSize chunkSize outputPath i n pos).getD j
          default).start ≤ b ∧
        b ≤ ((generateSegmentsAux totalSize chunkSize outputPath i n pos).getD j
          default).endPos := by
  induction n with
  | zero => intro i pos b h; omega
  | succ m ih =>
    intro i pos b _ hpos hpb hbt
    rw [gsa_cons]
    cases m with
    | zero =>
      refine ⟨0, ⟨by omega, ?_, ?_⟩, ?_⟩
      · simp only [List.getD_cons_zero]
        exact hpb
      · exact (show b ≤ totalSize - 1 by omega)
      · rintro y ⟨hy, _, _⟩
        omega
    | succ l =>
      have hneq : ¬(l + 1 = 0) := by omega
      simp only [if_neg hneq]
      have hmin1 : min (pos + chunkSize - 1) (totalSize - 1) ≤ totalSize - 1 :=
        min_le_right _ _
      have hmin2 : pos - 1 ≤ min (pos + chunkSize - 1) (totalSize - 1) := by
        rcases le_total (pos + chunkSize - 1) (totalSize - 1) with hle | hle
        · rw [min_eq_left hle]; omega
        · rw [min_eq_right hle]; omega
      by_cases hb : b ≤ min (pos + chunkSize - 1) (totalSize - 1)
      · refine ⟨0, ⟨by omega, ?_, ?_⟩, ?_⟩
        · simp only [List.getD_cons_zero]
          exact hpb
        · simp only [List.getD_cons_zero]
          exact hb
        · rintro y ⟨hy, hys, hye⟩
          cases y with
          | zero => rfl
          | succ k =>
            exfalso
            simp only [List.getD_cons_succ] at hys
            have hge := gsa_start_ge totalSize chunkSize outputPath hchunk htotal
              (l + 1) (i + 1) (min (pos + chunkSize - 1) (totalSize - 1) + 1) k
              (by omega) (by omega)
            omega
      · push_neg at hb
        obtain ⟨j2, hj2, huniq⟩ := ih (i + 1)
          (min (pos + chunkSize - 1) (totalSize - 1) + 1) b (by omega) (by omega)
          (by omega) hbt
        refine ⟨j2 + 1, ⟨by omega, ?_, ?_⟩, ?_⟩
        · simp only [List.getD_cons_succ]
          exact hj2.2.1
        · simp only [List.getD_cons_succ]
          exact hj2.2.2
        · rintro y ⟨hy, hys, hye⟩
          cases y with
          | zero =>
            exfalso
            simp only [List.getD_cons_zero] at hye
            omega
          | succ k =>
            simp only [List.getD_cons_succ] at hys hye
            have hk := huniq k ⟨by omega, hys, hye⟩
            omega

/-- Starts are monotone along any chain-contiguous segment list. -/
theorem seg_starts_mono (segs : List DownloadSegment)
    (hchain : ∀ j, j + 1 < segs.length →
      (segs.getD (j + 1) default).start = (segs.getD j default).endPos + 1)
    (hse : ∀ j, j < segs.length →
      (segs.getD j default).start ≤ (segs.getD j default).endPos + 1) :
    ∀ j k, j < k → k < segs.length →
      (segs.getD j default).start ≤ (segs.getD k default).start := by
  intro j k
  induction k with
  | zero => intro h _; omega
  | succ m ih =>
    intro hjk hk
    have hstep : (segs.getD m default).start ≤
        (segs.getD (m + 1) default).start := by
      rw [hchain m hk]
      exact hse m (by omega)
    rcases Nat.lt_or_ge j m with hj | hj
    · exact le_trans (ih hj (by omega)) hstep
    · have hje : j = m := by omega
      subst hje
      exact hstep

/-- `SegmentCalculator.generateSegments` produces an exact partition of
`[0, totalSize)` for every positive total size, connection count and chunk
size. -/
theorem generateSegments_partition (totalSize connections chunkSize : Nat)
    (outputPath : String) (htotal : 0 < totalSize) (hconn : 0 < connections)
    (hchunk : 0 < chunkSize) :
    segmentsPartition totalSize
      (generateSegments totalSize connections chunkSize outputPath) := by
  have hlen :
      (generateSegmentsAux totalSize chunkSize outputPath 0 connections 0).length
        = connections :=
    gsa_length totalSize chunkSize outputPath connections 0 0
  unfold generateSegments
  refine ⟨?_, ?_, ?_, ?_, ?_, ?_, ?_, ?_⟩
  · intro hnil
    rw [hnil] at hlen
    simp at hlen
    omega
  · intro j hj
    rw [hlen] at hj
    simpa using gsa_getD_id totalSize chunkSize outputPath connections 0 0 j hj
  · exact gsa_getD_zero_start totalSize chunkSize outputPath connections 0 0 hconn
  · rw [hlen]
    exact gsa_getD_last_endPos totalSize chunkSize outputPath connections 0 0 hconn
  · intro j hj
    rw [hlen] at hj
    exact gsa_chain totalSize chunkSize outputPath connections 0 0 j hj
  · intro j k hjk hk
    rw [hlen] at hk
    refine seg_starts_mono _ ?_ ?_ j k hjk (by rw [hlen]; exact hk)
    · intro j2 hj2
      rw [hlen] at hj2
      exact gsa_chain totalSize chunkSize outputPath connections 0 0 j2 hj2
    · intro j2 hj2
      rw [hlen] at hj2
      exact gsa_start_le_endPos_succ totalSize chunkSize outputPath hchunk htotal
        connections 0 0 j2 (by omega) hj2
  · intro j hj
    rw [hlen] at hj
    have h1 := gsa_endPos_le totalSize chunkSize outputPath htotal connections
      0 0 j hj
    omega
  · intro b hbt
    obtain ⟨j, hj, huniq⟩ := gsa_cover totalSize chunkSize outputPath hchunk
      htotal connections 0 0 b hconn (by omega) (by omega) hbt
    refine ⟨j, ⟨by rw [hlen]; exact hj.1, hj.2.1, hj.2.2⟩, ?_⟩
    rintro y ⟨hy, hys, hye⟩
    rw [hlen] at hy
    exact huniq y ⟨hy, hys, hye⟩

/-- `getD` after mapping a function over `List.range`. -/
theorem range_map_getD {α : Type} [Inhabited α] (f : Nat → α) (n j : Nat)
    (h : j < n) : ((List.range n).map f).getD j default = f j := by
  rw [List.getD_eq_getElem?_getD, List.getElem?_map, List.getElem?_range h]
  rfl

/-- `MultiThreadDownloader.calculateSegments` produces an exact partition of
`[0, totalSize)` for every positive total size, concurrency and chunk
size. -/
theorem calculateSegments_partition (totalSize maxConcurrency chunkSize : Nat)
    (outputPath : String) (htotal : 0 < totalSize) (hmc : 0 < maxConcurrency)
    (hchunk : 0 < chunkSize) :
    segmentsPartition totalSize
      (calculateSegments totalSize maxConcurrency chunkSize outputPath) := by
  have hceil1 : 1 ≤ natCeilDiv totalSize chunkSize := by
    unfold natCeilDiv
    rw [Nat.one_le_div_iff hchunk]
    omega
  have hceil2 : natCeilDiv totalSize chunkSize ≤ totalSize := by
    unfold natCeilDiv
    have hmul : totalSize ≤ totalSize * chunkSize :=
      Nat.le_mul_of_pos_right totalSize hchunk
    have h3 : totalSize + chunkSize - 1 < (totalSize + 1) * chunkSize := by
      have hexp : (totalSize + 1) * chunkSize = totalSize * chunkSize + chunkSize := by
        ring
      omega
    have h4 := (Nat.div_lt_iff_lt_mul hchunk).mpr h3
    omega
  simp only [calculateSegments]
  set N := min maxConcurrency (natCeilDiv totalSize chunkSize) with hNdef
  set size := totalSize / N with hsizedef
  have hN1 : 0 < N := lt_min hmc hceil1
  have hNtot : N ≤ totalSize := le_trans (min_le_right _ _) hceil2
  have hsize1 : 0 < size := by
    rw [hsizedef]
    exact (Nat.one_le_div_iff hN1).mpr hNtot
  have hNsize : N * size ≤ totalSize := by
    rw [hsizedef, Nat.mul_comm]
    exact Nat.div_mul_le_self totalSize N
  obtain ⟨n2, hn2⟩ : ∃ n2, N = n2 + 1 := ⟨N - 1, by omega⟩
  have hlen : (((List.range N).map (fun i =>
      ({ id := "segment_" ++ toString i
         start := i * size
         endPos := if i = N - 1 then totalSize - 1 else i * size + size - 1
         downloaded := 0
         status := .pending
         filePath := outputPath ++ ".part" ++ toString i } :
        DownloadSegment)))).length = N := by
    simp
  refine ⟨?_, ?_, ?_, ?_, ?_, ?_, ?_, ?_⟩
  · intro hnil
    rw [hnil] at hlen
    simp at hlen
    omega
  · intro j hj
    rw [hlen] at hj
    rw [range_map_getD _ _ _ hj]
  · rw [range_map_getD _ _ _ hN1]
    simp
  · rw [hlen, range_map_getD _ _ _ (by omega)]
    simp
  · intro j hj
    rw [hlen] at hj
    rw [range_map_getD _ _ _ (by omega), range_map_getD _ _ _ (by omega)]
    dsimp only
    have hjne : ¬(j = N - 1) := by omega
    simp only [if_neg hjne]
    have hexp : (j + 1) * size = j * size + size := by ring
    omega
  · intro j k hjk hk
    rw [hlen] at hk
    rw [range_map_getD _ _ _ (by omega), range_map_getD _ _ _ hk]
    exact Nat.mul_le_mul_right size (by omega)
  · intro j hj
    rw [hlen] at hj
    rw [range_map_getD _ _ _ hj]
    dsimp only
    by_cases hjl : j = N - 1
    · simp only [if_pos hjl]
      omega
    · simp only [if_neg hjl]
      have h1 : (j + 1) * size ≤ n2 * size :=
        Nat.mul_le_mul_right size (by omega)
      have h2 : j * size + size = (j + 1) * size := by ring
      have h3 : n2 * size + size = (n2 + 1) * size := by ring
      have h4 : (n2 + 1) * size ≤ totalSize := by
        rw [← hn2]
        exact hNsize
      omega
  · intro b hbt
    have hq1 : b / size * size ≤ b := Nat.div_mul_le_self b size
    have hq2 : b < b / size * size + size := by
      have hdm := Nat.div_add_mod b size
      have hml := Nat.mod_lt b hsize1
      have hcm : size * (b / size) = b / size * size := Nat.mul_comm _ _
      omega
    by_cases hql : b / size < N - 1
    · refine ⟨b / size, ⟨?_, ?_, ?_⟩, ?_⟩
      · rw [hlen]; omega
      · rw [range_map_getD _ _ _ (by omega)]
        exact hq1
      · rw [range_map_getD _ _ _ (by omega)]
        dsimp only
        simp only [if_neg (show ¬(b / size = N - 1) by omega)]
        omega
      · rintro y ⟨hy, hys, hye⟩
        rw [hlen] at hy
        rw [range_map_getD _ _ _ hy] at hys hye
        dsimp only at hys hye
        by_cases hyl : y = N - 1
        · exfalso
          subst hyl
          have hle : N - 1 ≤ b / size :=
            (Nat.le_div_iff_mul_le hsize1).mpr hys
          omega
        · simp only [if_neg hyl] at hye
          have h1 : y * size ≤ b := hys
          have h2 : b < (y + 1) * size := by
            have hexp : y * size + size = (y + 1) * size := by ring
            omega
          exact (Nat.div_eq_of_lt_le h1 h2).symm
    · refine ⟨N - 1, ⟨?_, ?_, ?_⟩, ?_⟩
      · rw [hlen]; omega
      · rw [range_map_getD _ _ _ (by omega)]
        dsimp only
        have h1 : (N - 1) * size ≤ b / size * size :=
          Nat.mul_le_mul_right size (by omega)
        omega
      · rw [range_map_getD _ _ _ (by omega)]
        dsimp only
        rw [if_pos rfl]
        omega
      · rintro y ⟨hy, hys, hye⟩
        rw [hlen] at hy
        rw [range_map_getD _ _ _ hy] at hys hye
        dsimp only at hys hye
        by_cases hyl : y = N - 1
        · exact hyl
        · exfalso
          simp only [if_neg hyl] at hye
          have h1 : y * size ≤ b := hys
          have h2 : b < (y + 1) * size := by
            have hexp : y * size + size = (y + 1) * size := by ring
            omega
          have h5 : b / size = y := Nat.div_eq_of_lt_le h1 h2
          omega

/-- Claim C4: for every positive `total_size` and valid planner inputs, both
planners — `MultiThreadDownloader.calculateSegments` and
`SegmentCalculator.generateSegments` — emit segment lists that exactly
partition `[0, total_size)`: nonempty, ids `segment_0 … segment_{N-1}`, first
start 0, last end `total_size - 1`, consecutive segments contiguous, starts
ordered, and every byte covered by exactly one segment (no gaps, no
overlaps).  Determinism holds definitionally: both planners are pure
functions of their inputs. -/
theorem c4_planners_partition (totalSize maxConcurrency chunkSize connections : Nat)
    (outputPath : String) (htotal : 0 < totalSize) (hmc : 0 < maxConcurrency)
    (hchunk : 0 < chunkSize) (hconn : 0 < connections) :
    segmentsPartition totalSize
      (calculateSegments totalSize maxConcurrency chunkSize outputPath) ∧
    segmentsPartition totalSize
      (generateSegments totalSize connections chunkSize outputPath) :=
  ⟨calculateSegments_partition totalSize maxConcurrency chunkSize outputPath
      htotal hmc hchunk,
    generateSegments_partition totalSize connections chunkSize outputPath
      htotal hconn hchunk⟩

/-- Witness for `c4_planners_partition` at the spec's four-segment scenario
(`total_size = 4_000_000`, `max_concurrency = 4`, `chunk_size = 1 MiB`). -/
theorem c4_planners_partition_witness :
    (0 : Nat) < 4000000 ∧ (0 : Nat) < 4 ∧ (0 : Nat) < 1048576 ∧
    (segmentsPartition 4000000 (calculateSegments 4000000 4 1048576 "/d/f.bin") ∧
      segmentsPartition 4000000 (generateSegments 4000000 4 1048576 "/d/f.bin")) :=
  ⟨by decide, by decide, by decide,
    c4_planners_partition 4000000 4 1048576 4 "/d/f.bin" (by decide) (by decide)
      (by decide) (by decide)⟩

end DownLoadMCP
